import Mathlib

/-!
Verification of the kanban flow-metrics core (MrLutik/kanban).

Shallow embedding conventions:
* wall-clock timestamps and durations are exact rationals (`ℚ`), measured in
  hours unless noted; Go `float64` arithmetic is embedded as exact `ℚ`
  arithmetic (the claims under test are about the arithmetic rules, and the
  concrete inputs appearing in them are exactly representable);
* nullable SQL columns and Go pointers are `Option`; the Go convention of
  an empty string standing for SQL NULL is kept via `nullString`;
* Go `math.Round` (round half away from zero) is `goRound`;
* SQL tables are lists of rows; `INSERT OR REPLACE` removes the row that
  conflicts on the unique key before appending the new one;
* Go maps are association lists; where the source ranges over a map, the
  list order stands for the (randomized) iteration order of the map.
-/

namespace Kanban

/-- Go `math.Round`: round to nearest integer, halves away from zero. -/
def goRound (x : ℚ) : ℤ :=
  if 0 ≤ x then ⌊x + 1/2⌋ else ⌈x - 1/2⌉

/-- `math.Round(x*10)/10` — round to one decimal digit, as used throughout
`metrics.go` for reported day values. -/
def round1 (x : ℚ) : ℚ :=
  (goRound (x * 10) : ℚ) / 10

/-- `TimeStats` from `cmd/kanban/cmd/metrics.go`.  The Go struct stores
`StdDev = math.Round(math.Sqrt(sumSquares/n)*10)/10`; since the square root
of a rational is irrational in general we keep the radicand
`sumSquares / n` (the population variance) in field `variancePop`; the
standard deviation of the source is determined by it as `round1 (sqrt variancePop)`. -/
structure TimeStats where
  average : ℚ := 0
  median : ℚ := 0
  p85 : ℚ := 0
  min : ℚ := 0
  max : ℚ := 0
  variancePop : ℚ := 0
  count : ℕ := 0
deriving DecidableEq, Repr

/-- `calculateTimeStats` from `cmd/kanban/cmd/metrics.go` (lines 679-725).
The Go index `int(float64(n) * 0.85)` equals `⌊0.85·n⌋` for every reachable
list length (the accumulated double-rounding error stays far below half an
ulp of the product), embedded as Nat division `85 * n / 100`. -/
def calculateTimeStats (values : List ℚ) : TimeStats :=
  if values = [] then {} else
  let sorted := values.insertionSort (· ≤ ·)
  let n := values.length
  let mean := values.sum / n
  let sumSquares := (values.map (fun v => (v - mean) ^ 2)).sum
  let p50idx := n / 2
  let p85idxRaw := 85 * n / 100
  let p85idx := if n ≤ p85idxRaw then n - 1 else p85idxRaw
  { count := n
    average := round1 mean
    min := round1 (sorted.getD 0 0)
    max := round1 (sorted.getD (n - 1) 0)
    variancePop := sumSquares / n
    p85 := round1 (sorted.getD p85idx 0)
    median :=
      if n % 2 = 0 then round1 ((sorted.getD (p50idx - 1) 0 + sorted.getD p50idx 0) / 2)
      else round1 (sorted.getD p50idx 0) }

/-! ## Flow efficiency (cached mode, `collectMetricsCached` lines 472-492) -/

/-- Row produced by `GetClosedIssuesInPeriod` (db.go): lead and cycle time
hours are COALESCEd to 0 when the stored column is NULL. -/
structure ClosedIssueStats where
  number : ℕ := 0
  title : String := ""
  createdAt : ℚ := 0
  closedAt : ℚ := 0
  leadTimeHours : ℚ
  cycleTimeHours : ℚ
deriving DecidableEq, Repr

/-- The `cycleTimes` sample list of `collectMetricsCached`: day values of the
issues with positive stored cycle time (the loop of lines 474-482, rendered
as filter and map, which preserves the iteration order). -/
def cycleTimesOf (closed : List ClosedIssueStats) : List ℚ :=
  (closed.filter (fun i => 0 < i.cycleTimeHours)).map (fun i => i.cycleTimeHours / 24)

/-- The `workflowLeadTimes` sample list of `collectMetricsCached`: lead-time
day values of the same positive-cycle-time issues (and positive lead time). -/
def workflowLeadTimesOf (closed : List ClosedIssueStats) : List ℚ :=
  ((closed.filter (fun i => 0 < i.cycleTimeHours)).filter
    (fun i => 0 < i.leadTimeHours)).map (fun i => i.leadTimeHours / 24)

/-- The flow-efficiency computation of `collectMetricsCached`
(metrics.go 483-492): `math.Round(m.CycleTime.Average / workflowLead.Average * 100)`
where both averages are the one-decimal-rounded outputs of
`calculateTimeStats`. -/
def flowEfficiencyCached (closed : List ClosedIssueStats) : ℚ :=
  let cycleTimes := cycleTimesOf closed
  let workflowLeadTimes := workflowLeadTimesOf closed
  if cycleTimes = [] then 0 else
  let cyc := calculateTimeStats cycleTimes
  if workflowLeadTimes = [] then 0 else
  let workflowLead := calculateTimeStats workflowLeadTimes
  if 0 < workflowLead.average then (goRound (cyc.average / workflowLead.average * 100) : ℚ)
  else 0

/-- The flow-efficiency rule in the words of the spec, for comparison with
`flowEfficiencyCached`: the ratio of the UNROUNDED average cycle time to the
UNROUNDED average lead time over the same positive-cycle-time subset. -/
def flowEfficiencySpecRule (closed : List ClosedIssueStats) : ℚ :=
  let cycleTimes := cycleTimesOf closed
  let workflowLeadTimes := workflowLeadTimesOf closed
  if cycleTimes = [] then 0 else
  if workflowLeadTimes = [] then 0 else
  let avgCycle := cycleTimes.sum / cycleTimes.length
  let avgLead := workflowLeadTimes.sum / workflowLeadTimes.length
  if 0 < avgLead then (goRound (avgCycle / avgLead * 100) : ℚ) else 0

/-! ## Littles-law check (`collectKanbanMetrics` lines 663-671) -/

/-- Association-list lookup standing for a Go map read `m[k]` with a `ℕ`
value type (missing key yields the zero value). -/
def lookupNat (m : List (String × ℕ)) (k : String) : ℕ :=
  ((m.find? (fun p => p.1 == k)).map (fun p => p.2)).getD 0

/-- Association-list lookup standing for the Go comma-ok map read
`v, ok := m[k]`. -/
def lookupOk (m : List (String × ℕ)) (k : String) : Option ℕ :=
  (m.find? (fun p => p.1 == k)).map (fun p => p.2)

/-- `LittlesLaw` struct from metrics.go. -/
structure LittlesLawR where
  calculatedWIP : ℚ := 0
  actualWIP : ℤ := 0
  variance : ℚ := 0
deriving DecidableEq, Repr

/-- The active-WIP count of `collectKanbanMetrics` line 664: ready,
in-progress, review and testing columns only. -/
def activeWIPOf (wip : List (String × ℕ)) : ℕ :=
  lookupNat wip "ready" + lookupNat wip "in-progress" +
  lookupNat wip "review" + lookupNat wip "testing"

/-- The Littles-law block of `collectKanbanMetrics` (metrics.go 663-671).
`Variance = math.Round((actual-calc)/calc*1000)/10`, i.e. a percentage with
one decimal digit. -/
def littlesLawCheck (throughputPerDay leadTimeAvg : ℚ)
    (wip : List (String × ℕ)) : LittlesLawR :=
  let activeWIP := activeWIPOf wip
  if 0 < throughputPerDay ∧ 0 < leadTimeAvg then
    let calcWIP := throughputPerDay * leadTimeAvg
    { calculatedWIP := calcWIP
      actualWIP := (activeWIP : ℤ)
      variance := if 0 < calcWIP then round1 (((activeWIP : ℚ) - calcWIP) / calcWIP * 100) else 0 }
  else {}

/-! ## Bottleneck rules (`identifyBottlenecks`, metrics.go 727-769)

The source appends format strings to a slice; we record each fired signal
as a constructor carrying exactly the data interpolated into the
corresponding format string, the rendering itself being presentation. -/

/-- One fired bottleneck signal, with the data the source interpolates. -/
inductive Bottleneck where
  | wipLimit (status : String) (count limit : ℕ)
  | overload (arrivalRate departureRate : ℚ)
  | reviewBacklog
  | testingBacklog
  | staleItems (count : ℕ)
  | flowInstability (variance : ℚ)
deriving DecidableEq, Repr

/-- The fields of `KanbanMetrics` read by `identifyBottlenecks`.  `wip` is
the Go map `m.WIP` together with its iteration order; `wipLimits` is the Go
map `m.WIPLimits` (read only by key lookup); `agingAgeDays` lists the
`AgeDays` of `m.AgingIssues`; `littlesVariance` is `m.LittlesLaw.Variance`. -/
structure MetricsForBottlenecks where
  wip : List (String × ℕ) := []
  wipLimits : List (String × ℕ) := []
  arrivalRate : ℚ := 0
  departureRate : ℚ := 0
  agingAgeDays : List ℚ := []
  littlesVariance : ℚ := 0
deriving DecidableEq, Repr

/-- `identifyBottlenecks` (metrics.go 727-769), with the six sequential
rule blocks rendered in source order; `1.5` and `0.5` are `3/2` and `1/2`. -/
def identifyBottlenecks (m : MetricsForBottlenecks) : List Bottleneck :=
  let b1 := m.wip.foldl (fun acc p =>
    match lookupOk m.wipLimits ("status: " ++ p.1) with
    | some limit => if limit < p.2 then acc ++ [.wipLimit p.1 p.2 limit] else acc
    | none => acc) []
  let b2 := if m.departureRate * (3/2) < m.arrivalRate ∧ (1/2 : ℚ) < m.arrivalRate
            then b1 ++ [.overload m.arrivalRate m.departureRate] else b1
  let b3 := if lookupNat m.wip "in-progress" * 2 < lookupNat m.wip "review" ∧
               2 < lookupNat m.wip "review"
            then b2 ++ [.reviewBacklog] else b2
  let b4 := if lookupNat m.wip "review" * 2 < lookupNat m.wip "testing" ∧
               2 < lookupNat m.wip "testing"
            then b3 ++ [.testingBacklog] else b3
  let staleCount := (m.agingAgeDays.filter (fun a => 14 < a)).length
  let b5 := if 0 < staleCount then b4 ++ [.staleItems staleCount] else b4
  if 50 < |m.littlesVariance| then b5 ++ [.flowInstability m.littlesVariance] else b5

/-- Rule 1 in isolation: WIP-limit violations, one signal per violating
status, in WIP-map iteration order. -/
def wipLimitSignals (m : MetricsForBottlenecks) : List Bottleneck :=
  m.wip.filterMap (fun p =>
    match lookupOk m.wipLimits ("status: " ++ p.1) with
    | some limit => if limit < p.2 then some (.wipLimit p.1 p.2 limit) else none
    | none => none)

/-- Rule 2 in isolation: arrival rate more than 1.5 times the departure
rate, above the 0.5/day arrival floor. -/
def overloadSignal (m : MetricsForBottlenecks) : List Bottleneck :=
  if m.departureRate * (3/2) < m.arrivalRate ∧ (1/2 : ℚ) < m.arrivalRate
  then [.overload m.arrivalRate m.departureRate] else []

/-- Rule 3 in isolation: review WIP more than double in-progress WIP, above
the absolute floor of 2. -/
def reviewSignal (m : MetricsForBottlenecks) : List Bottleneck :=
  if lookupNat m.wip "in-progress" * 2 < lookupNat m.wip "review" ∧
     2 < lookupNat m.wip "review"
  then [.reviewBacklog] else []

/-- Rule 4 in isolation: testing WIP more than double review WIP, same floor. -/
def testingSignal (m : MetricsForBottlenecks) : List Bottleneck :=
  if lookupNat m.wip "review" * 2 < lookupNat m.wip "testing" ∧
     2 < lookupNat m.wip "testing"
  then [.testingBacklog] else []

/-- Rule 5 in isolation: items older than 14 days. -/
def staleSignal (m : MetricsForBottlenecks) : List Bottleneck :=
  let staleCount := (m.agingAgeDays.filter (fun a => 14 < a)).length
  if 0 < staleCount then [.staleItems staleCount] else []

/-- Rule 6 in isolation: Littles-law variance magnitude above 50. -/
def instabilitySignal (m : MetricsForBottlenecks) : List Bottleneck :=
  if 50 < |m.littlesVariance| then [.flowInstability m.littlesVariance] else []

/-! ## Cycle/lead recomputation (`RecalcCycleTime`, part_007 lines 446-464) -/

/-- The columns of an `issues` row read and written by `RecalcCycleTime`.
Timestamps are hour-valued rationals; `julianday(b) - julianday(a)` times 24
is embedded as the direct difference `b - a` of hour values. -/
structure IssueTimesRow where
  ghCreatedAt : ℚ
  ghClosedAt : Option ℚ := none
  enteredProgressAt : Option ℚ := none
  enteredDoneAt : Option ℚ := none
  blockedTimeHours : Option ℚ := none
  leadTimeHours : Option ℚ := none
  cycleTimeHours : Option ℚ := none
deriving DecidableEq, Repr

/-- SQL `COALESCE` on two nullable values. -/
def coalesce (a b : Option ℚ) : Option ℚ :=
  match a with
  | some v => some v
  | none => b

/-- `RecalcCycleTime` (part_007 446-464): cycle time only when the issue
went through in-progress and is finished; lead time for every finished
issue; the end instant is `COALESCE(entered_done_at, gh_closed_at)`. -/
def RecalcCycleTime (i : IssueTimesRow) : IssueTimesRow :=
  let endAt := coalesce i.enteredDoneAt i.ghClosedAt
  { i with
    cycleTimeHours :=
      match i.enteredProgressAt, endAt with
      | some p, some e => some (e - p - (i.blockedTimeHours.getD 0))
      | _, _ => none
    leadTimeHours :=
      match endAt with
      | some e => some (e - i.ghCreatedAt)
      | none => none }

/-! ## CFD snapshot store (`SaveCFDSnapshot`, part_007 525-535; schema
`cfd_data` with UNIQUE(repo_id, snapshot_date, status)) -/

/-- A `cfd_data` row; `snapshotDate` is the formatted calendar day. -/
structure CFDRow where
  repoId : ℕ
  snapshotDate : String
  status : String
  cumulativeCount : ℕ
deriving DecidableEq, Repr

/-- The unique key of `cfd_data`. -/
def cfdKey (r : CFDRow) : ℕ × String × String :=
  (r.repoId, r.snapshotDate, r.status)

/-- `INSERT OR REPLACE INTO cfd_data`: drop any row conflicting on the
unique key, then insert. -/
def insertOrReplaceCFD (t : List CFDRow) (r : CFDRow) : List CFDRow :=
  (t.filter (fun x => cfdKey x ≠ cfdKey r)) ++ [r]

/-- `SaveCFDSnapshot` (part_007 525-535): one `INSERT OR REPLACE` per
status of the counts map (`statusCounts` carries the map entries in
iteration order; a Go map never holds a key twice). -/
def SaveCFDSnapshot (t : List CFDRow) (repoId : ℕ) (date : String)
    (statusCounts : List (String × ℕ)) : List CFDRow :=
  statusCounts.foldl
    (fun acc p => insertOrReplaceCFD acc ⟨repoId, date, p.1, p.2⟩) t

/-- The rows of a table holding a given key. -/
def rowsForKey (t : List CFDRow) (k : ℕ × String × String) : List CFDRow :=
  t.filter (fun x => cfdKey x = k)

/-! ## Entity store: issues, transitions and upserts (part_007 lines 79-174,
431-441) -/

/-- An `issues` row, with the Go struct convention that empty strings in the
classification columns stand for SQL NULL (`nullString`). -/
structure Issue where
  id : ℕ := 0
  repoId : ℕ
  number : ℕ
  title : String := ""
  state : String := ""
  ghCreatedAt : ℚ := 0
  ghUpdatedAt : ℚ := 0
  ghClosedAt : Option ℚ := none
  currentStatus : String := ""
  currentPriority : String := ""
  currentType : String := ""
  currentSize : String := ""
  isBlocked : Bool := false
  assignee : String := ""
  enteredReadyAt : Option ℚ := none
  enteredProgressAt : Option ℚ := none
  enteredReviewAt : Option ℚ := none
  enteredTestingAt : Option ℚ := none
  enteredDoneAt : Option ℚ := none
  leadTimeHours : ℚ := 0
  cycleTimeHours : ℚ := 0
  blockedTimeHours : ℚ := 0
deriving DecidableEq, Repr

/-- `nullString` (part_007 602-607): empty string is stored as NULL. -/
def nullString (s : String) : Option String :=
  if s = "" then none else some s

/-- A `status_transitions` row (append-only ledger). -/
structure StatusTransition where
  issueId : ℕ
  fromStatus : Option String
  toStatus : String
  transitionedAt : ℚ
deriving DecidableEq, Repr

/-- The relational state touched by the issue upsert path. -/
structure DBState where
  issues : List Issue := []
  transitions : List StatusTransition := []
  nextId : ℕ := 1
deriving DecidableEq, Repr

/-- `RecordStatusTransition` (part_007 170-174): append one ledger row,
NULLing an empty from-status. -/
def RecordStatusTransition (db : DBState) (issueId : ℕ)
    (fromStatus toStatus : String) (transitionedAt : ℚ) : DBState :=
  { db with transitions :=
      db.transitions ++ [⟨issueId, nullString fromStatus, toStatus, transitionedAt⟩] }

/-- `UPDATE ... SET col = CURRENT_TIMESTAMP WHERE id = ? AND col IS NULL`:
fill the column only when it is currently NULL. -/
def fillIfNull (col : Option ℚ) (now : ℚ) : Option ℚ :=
  match col with
  | none => some now
  | some v => some v

/-- Apply a row transformation to the issue with the given id. -/
def mapIssueRow (db : DBState) (issueId : ℕ) (f : Issue → Issue) : DBState :=
  { db with issues := db.issues.map (fun i => if i.id = issueId then f i else i) }

/-- `updateStatusTimestamp` (part_007 149-167): stamp the entered column of
the given status with the current time, only where it is still NULL; an
unknown status is a no-op. -/
def updateStatusTimestamp (db : DBState) (issueId : ℕ) (status : String)
    (now : ℚ) : DBState :=
  match status with
  | "ready" => mapIssueRow db issueId
      (fun i => { i with enteredReadyAt := fillIfNull i.enteredReadyAt now })
  | "in-progress" => mapIssueRow db issueId
      (fun i => { i with enteredProgressAt := fillIfNull i.enteredProgressAt now })
  | "review" => mapIssueRow db issueId
      (fun i => { i with enteredReviewAt := fillIfNull i.enteredReviewAt now })
  | "testing" => mapIssueRow db issueId
      (fun i => { i with enteredTestingAt := fillIfNull i.enteredTestingAt now })
  | "done" => mapIssueRow db issueId
      (fun i => { i with enteredDoneAt := fillIfNull i.enteredDoneAt now })
  | _ => db

/-- `UpdateIssueTimestamps` (part_007 431-441): the SQL is
`entered_x_at = COALESCE(?, entered_x_at)` for each of the five columns —
the parameter comes FIRST, so a non-null timeline value replaces whatever
the column holds. -/
def UpdateIssueTimestamps (db : DBState) (issueId : ℕ)
    (ready progress review testing done : Option ℚ) : DBState :=
  mapIssueRow db issueId (fun i =>
    { i with
      enteredReadyAt := coalesce ready i.enteredReadyAt
      enteredProgressAt := coalesce progress i.enteredProgressAt
      enteredReviewAt := coalesce review i.enteredReviewAt
      enteredTestingAt := coalesce testing i.enteredTestingAt
      enteredDoneAt := coalesce done i.enteredDoneAt })

/-- The `SELECT id, current_status FROM issues WHERE repo_id = ? AND number = ?`
probe of `UpsertIssue`. -/
def findIssue (db : DBState) (repoId number : ℕ) : Option Issue :=
  db.issues.find? (fun i => i.repoId == repoId && i.number == number)

/-- The `UPDATE issues SET ...` of `UpsertIssue` (part_007 128-140): every
mutable field is overwritten unconditionally; the entered timestamps, the
creation time and the key are not in the SET list. -/
def applyIssueUpdate (incoming : Issue) (i : Issue) : Issue :=
  { i with
    title := incoming.title
    state := incoming.state
    ghUpdatedAt := incoming.ghUpdatedAt
    ghClosedAt := incoming.ghClosedAt
    currentStatus := incoming.currentStatus
    currentPriority := incoming.currentPriority
    currentType := incoming.currentType
    currentSize := incoming.currentSize
    isBlocked := incoming.isBlocked
    assignee := incoming.assignee
    leadTimeHours := incoming.leadTimeHours
    cycleTimeHours := incoming.cycleTimeHours
    blockedTimeHours := incoming.blockedTimeHours }

/-- `UpsertIssue` (part_007 79-147).  `now` is `time.Now()` at processing
time.  Insert path: the new row takes the next rowid and, when the incoming
status is non-empty, an initial transition from empty is recorded at the
remote update time.  Update path: a status change appends one transition at
processing time and stamps the still-NULL entered column of the new status;
then the unconditional UPDATE overwrites the mutable fields. -/
def UpsertIssue (db : DBState) (issue : Issue) (now : ℚ) : DBState :=
  match findIssue db issue.repoId issue.number with
  | none =>
      let newId := db.nextId
      let inserted := { issue with id := newId }
      let db1 : DBState :=
        { db with issues := db.issues ++ [inserted], nextId := db.nextId + 1 }
      if issue.currentStatus ≠ "" then
        RecordStatusTransition db1 newId "" issue.currentStatus issue.ghUpdatedAt
      else db1
  | some existing =>
      let oldStatus := existing.currentStatus
      let db1 :=
        if oldStatus ≠ issue.currentStatus then
          let dbt := RecordStatusTransition db existing.id oldStatus issue.currentStatus now
          updateStatusTimestamp dbt existing.id issue.currentStatus now
        else db
      mapIssueRow db1 existing.id (applyIssueUpdate issue)

/-- Write discipline on the five first-entry timestamps: the second row
keeps every value the first row already holds. -/
def enteredPreserved (i j : Issue) : Prop :=
  (∀ v, i.enteredReadyAt = some v → j.enteredReadyAt = some v) ∧
  (∀ v, i.enteredProgressAt = some v → j.enteredProgressAt = some v) ∧
  (∀ v, i.enteredReviewAt = some v → j.enteredReviewAt = some v) ∧
  (∀ v, i.enteredTestingAt = some v → j.enteredTestingAt = some v) ∧
  (∀ v, i.enteredDoneAt = some v → j.enteredDoneAt = some v)

/-! ## Timeline resolver (`GetIssueTimeline`, internal/github/client.go
481-559) -/

/-- Go `strings.ToLower`, character by character (the labels at issue are
ASCII, where the Go byte-level and this character-level reading agree). -/
def goToLower (s : String) : String := ⟨s.data.map Char.toLower⟩

/-- Go `strings.HasPrefix`. -/
def goHasPre (s pre : String) : Bool := pre.data.isPrefixOf s.data

/-- Drop the first `n` characters (Go slicing `s[n:]` on ASCII input). -/
def strDrop (s : String) (n : ℕ) : String := ⟨s.data.drop n⟩

/-- Go `strings.TrimSpace`. -/
def goTrimSpace (s : String) : String :=
  ⟨((s.data.dropWhile Char.isWhitespace).reverse.dropWhile Char.isWhitespace).reverse⟩

/-- A label timeline event as consumed by the walk (events without a label
are skipped by the source before this logic). -/
structure TimelineEvent where
  event : String
  label : String
  createdAt : ℚ
deriving DecidableEq, Repr

/-- `github.BlockedPeriod`: a zero `End` time of the Go struct (still
blocked) is `none` here. -/
structure TLBlockedPeriod where
  start : ℚ
  stop : Option ℚ
  duration : ℚ
deriving DecidableEq, Repr

/-- `github.TimelineResult` (the `Events` echo of the raw input is omitted:
it is a verbatim copy of the input list). -/
structure TimelineResult where
  statusChanges : List (String × ℚ) := []
  blockedPeriods : List TLBlockedPeriod := []
  totalBlocked : ℚ := 0
deriving DecidableEq, Repr

/-- `extractStatus` (client.go 561-570): lowercase, strip the
`status:`/`status ` prefix (7 characters), trim whitespace. -/
def extractStatus (label : String) : String :=
  let lower := goToLower label
  if goHasPre lower "status:" then goTrimSpace (strDrop lower 7)
  else if goHasPre lower "status " then goTrimSpace (strDrop lower 7)
  else lower

/-- The loop state of the walk: the result built so far and the
`blockedStart` sentinel (`time.Time` zero value stands for "no open
interval", embedded as `none`). -/
structure WalkState where
  result : TimelineResult := {}
  blockedStart : Option ℚ := none
deriving DecidableEq, Repr

/-- One iteration of the event loop of `GetIssueTimeline` (client.go
513-546): record the first labeled event per status, open a blocked
interval on a "blocked" label-add, close it on a "blocked" label-remove. -/
def processEvent (st : WalkState) (e : TimelineEvent) : WalkState :=
  let st1 :=
    if e.event = "labeled" ∧ goHasPre (goToLower e.label) "status:" then
      let status := extractStatus e.label
      if (st.result.statusChanges.find? (fun p => p.1 == status)).isSome then st
      else { st with result := { st.result with
               statusChanges := st.result.statusChanges ++ [(status, e.createdAt)] } }
    else st
  let st2 :=
    if e.event = "labeled" ∧ goToLower e.label = "blocked" then
      { st1 with blockedStart := some e.createdAt }
    else st1
  if e.event = "unlabeled" ∧ goToLower e.label = "blocked" then
    match st2.blockedStart with
    | some s =>
        { st2 with
          result := { st2.result with
            blockedPeriods := st2.result.blockedPeriods ++ [⟨s, some e.createdAt, e.createdAt - s⟩]
            totalBlocked := st2.result.totalBlocked + (e.createdAt - s) }
          blockedStart := none }
    | none => st2
  else st2

/-- The event-walking logic of `GetIssueTimeline` (client.go 507-556) as a
function of the event list and the clock reading `now` (`time.Since` in the
source): walk the events, then report a still-open blocked interval with no
end and duration `now - start`. -/
def GetIssueTimeline (events : List TimelineEvent) (now : ℚ) : TimelineResult :=
  let final := events.foldl processEvent {}
  match final.blockedStart with
  | some s =>
      { final.result with
        blockedPeriods := final.result.blockedPeriods ++ [⟨s, none, now - s⟩]
        totalBlocked := final.result.totalBlocked + (now - s) }
  | none => final.result

/-! ## Cached metrics collection (`collectMetricsCached`, metrics.go
350-511) -/

/-- `truncate` (board.go 344-349); Go indexes bytes, we index characters
(the two agree on the ASCII titles at issue here). -/
def truncate (s : String) (maxLen : ℕ) : String :=
  if s.length ≤ maxLen then s else (⟨s.data.take (maxLen - 3)⟩ : String) ++ "..."

/-- Go `strings.TrimPrefix` (character-level, as everywhere here: the repo
names and labels at issue are ASCII, where Go bytes and characters agree). -/
def goTrimPfx (s pre : String) : String :=
  if pre.data.isPrefixOf s.data then ⟨s.data.drop pre.data.length⟩ else s

/-- A `wip_summary` view row as read by `GetWIPSummary`. -/
structure WIPSummaryRow where
  repo : String
  status : String
  count : ℕ
  avgAgeHours : ℚ := 0
deriving DecidableEq, Repr

/-- A `board_view` row as read by `GetBoardIssues`. -/
structure BoardIssue where
  repo : String := ""
  number : ℕ := 0
  title : String := ""
  status : String := ""
  priority : String := ""
  assignee : String := ""
  isBlocked : Bool := false
  blockedTimeHours : ℚ := 0
  ageHours : ℚ := 0
deriving DecidableEq, Repr

/-- `AgingIssue` from metrics.go. -/
structure AgingIssue where
  repo : String := ""
  number : ℕ := 0
  title : String := ""
  status : String := ""
  assignee : String := ""
  ageDays : ℚ := 0
  blockedHours : ℚ := 0
  isBlocked : Bool := false
deriving DecidableEq, Repr

/-- `RateStats` from metrics.go. -/
structure RateStats where
  total : ℕ := 0
  perDay : ℚ := 0
  perWeek : ℚ := 0
deriving DecidableEq, Repr

/-- The fields of `KanbanMetrics` (metrics.go 80-111) populated by the
cached collection path (the `Generated` wall-clock stamp is omitted). -/
structure KanbanMetrics where
  repo : String := ""
  period : ℕ := 0
  leadTime : TimeStats := {}
  cycleTime : TimeStats := {}
  throughput : RateStats := {}
  flowEfficiency : ℚ := 0
  wip : List (String × ℕ) := []
  wipLimits : List (String × ℕ) := []
  wipAge : TimeStats := {}
  littlesLaw : LittlesLawR := {}
  arrivalRate : ℚ := 0
  departureRate : ℚ := 0
  blockedTime : ℚ := 0
  flowLoad : ℕ := 0
  density : List (String × ℚ) := []
  agingIssues : List AgingIssue := []
  bottlenecks : List Bottleneck := []
deriving DecidableEq, Repr

/-- The six canonical status columns (metrics.go line 405). -/
def metricsStatuses : List String :=
  ["backlog", "ready", "in-progress", "review", "testing", "done"]

/-- The per-repository body of the loop of `collectMetricsCached`
(metrics.go 394-503).  `wip` is the grouped WIP summary of this repository,
`issues` its board rows, `closedIssues` the closed issues of the window,
`arrival` the comma-ok read of the arrival map.  The aging sort
(`sort.Slice`, an unstable sort on strictly-greater age) is embedded as an
insertion sort on the matching non-strict comparator. -/
def buildRepoMetricsCached (organization repoName : String) (days : ℕ)
    (wip wipLimits : List (String × ℕ)) (issues : List BoardIssue)
    (closedIssues : List ClosedIssueStats) (arrival : Option ℕ) : KanbanMetrics :=
  let base : KanbanMetrics :=
    { repo := goTrimPfx repoName (organization ++ "/")
      period := days
      wip := wip
      wipLimits := wipLimits }
  let active := issues.filter
    (fun i => i.status ≠ "done" ∧ i.status ≠ "backlog" ∧ i.status ≠ "")
  let allAges := active.map (fun i => i.ageHours / 24)
  let aging0 : List AgingIssue := active.map (fun i =>
    { repo := base.repo, number := i.number, title := truncate i.title 35
      status := i.status, assignee := i.assignee
      ageDays := round1 (i.ageHours / 24)
      blockedHours := i.blockedTimeHours, isBlocked := i.isBlocked })
  let agingSorted := (aging0.insertionSort (fun a b => b.ageDays ≤ a.ageDays)).take 10
  let flowLoad := metricsStatuses.foldl (fun acc s => acc + lookupNat wip s) 0
  let density :=
    if 0 < flowLoad then
      wip.map (fun p => (p.1, ((goRound ((p.2 : ℚ) / (flowLoad : ℚ) * 1000) : ℚ)) / 10))
    else []
  let m := { base with
    agingIssues := agingSorted
    wipAge := if allAges ≠ [] then calculateTimeStats allAges else {}
    flowLoad := flowLoad
    density := density }
  let m :=
    if closedIssues ≠ [] then
      let total := closedIssues.length
      let perDay := (total : ℚ) / (days : ℚ)
      let leadTimes := (closedIssues.filter (fun i => 0 < i.leadTimeHours)).map
        (fun i => i.leadTimeHours / 24)
      { m with
        throughput := { total := total, perDay := perDay, perWeek := perDay * 7 }
        departureRate := perDay
        leadTime := if leadTimes ≠ [] then calculateTimeStats leadTimes else {}
        cycleTime := if cycleTimesOf closedIssues ≠ [] then
          calculateTimeStats (cycleTimesOf closedIssues) else {}
        flowEfficiency := flowEfficiencyCached closedIssues }
    else m
  let m := { m with
    arrivalRate := match arrival with
      | some n => (n : ℚ) / (days : ℚ)
      | none => 0 }
  let mb := identifyBottlenecks
    { wip := m.wip, wipLimits := m.wipLimits
      arrivalRate := m.arrivalRate, departureRate := m.departureRate
      agingAgeDays := m.agingIssues.map (fun a => a.ageDays)
      littlesVariance := m.littlesLaw.variance }
  { m with bottlenecks := mb }

/-- The `repoWIP` grouping of `collectMetricsCached` (lines 369-375), in
first-seen order (the Go map iteration order is randomized; only emptiness
and per-repository content matter to the claims below). -/
def groupWIP (rows : List WIPSummaryRow) : List (String × List (String × ℕ)) :=
  rows.foldl (fun acc w =>
    if (acc.find? (fun p => p.1 == w.repo)).isSome then
      acc.map (fun p => if p.1 == w.repo then (p.1, p.2 ++ [(w.status, w.count)]) else p)
    else acc ++ [(w.repo, [(w.status, w.count)])]) []

/-- Association-list lookup for the per-repository closed-issue sets
(`GetClosedIssuesInPeriod` results; a fetch error is treated like no rows,
as the source only uses the rows when `err == nil`). -/
def lookupClosed (m : List (String × List ClosedIssueStats)) (k : String) :
    List ClosedIssueStats :=
  ((m.find? (fun p => p.1 == k)).map (fun p => p.2)).getD []

/-- The pure core of `collectMetricsCached` (metrics.go 350-511): group the
WIP summary by repository, build per-repository metrics, and return the
`no data found` error when no repository produced any metrics (lines
506-509). -/
def collectMetricsCachedCore (organization : String) (days : ℕ)
    (wipLimits : List (String × ℕ)) (wipSummary : List WIPSummaryRow)
    (boardIssues : List BoardIssue)
    (closedByRepo : List (String × List ClosedIssueStats))
    (arrivalByRepo : List (String × ℕ)) : Except String (List KanbanMetrics) :=
  let repoWIP := groupWIP wipSummary
  let allMetrics := repoWIP.map (fun p =>
    buildRepoMetricsCached organization p.1 days p.2 wipLimits
      (boardIssues.filter (fun i => i.repo == p.1))
      (lookupClosed closedByRepo p.1) (lookupOk arrivalByRepo p.1))
  if allMetrics = [] then
    Except.error "no data found. Run \x27kanban sync\x27 first to populate the database"
  else Except.ok allMetrics

/-! # Theorems -/

/-- C3: for every non-empty list of duration values, `calculateTimeStats`
sorts ascending (the sorted list is an ascending permutation of the input)
and returns the arithmetic mean as average, the midpoint average of the two
middle elements for even counts and the exact middle element for odd counts
as median, the sorted element at index `⌊0.85·n⌋` clamped to `n-1` as 85th
percentile, the first sorted element as min, the last as max, and the
population variance (whose square root the source reports as the population
standard deviation); in particular for input `[1,2,3,4,5]` it returns
average 3.0, median 3.0, p85 value 5, min 1, max 5. -/
theorem calculateTimeStats_spec (values : List ℚ) (h : values ≠ []) :
    (calculateTimeStats values).count = values.length ∧
    (calculateTimeStats values).average = round1 (values.sum / values.length) ∧
    (values.insertionSort (· ≤ ·)).Sorted (· ≤ ·) ∧
    (values.insertionSort (· ≤ ·)).Perm values ∧
    (calculateTimeStats values).min = round1 ((values.insertionSort (· ≤ ·)).getD 0 0) ∧
    (calculateTimeStats values).max =
      round1 ((values.insertionSort (· ≤ ·)).getD (values.length - 1) 0) ∧
    (calculateTimeStats values).p85 =
      round1 ((values.insertionSort (· ≤ ·)).getD
        (min (85 * values.length / 100) (values.length - 1)) 0) ∧
    (calculateTimeStats values).median =
      (if values.length % 2 = 0 then
        round1 (((values.insertionSort (· ≤ ·)).getD (values.length / 2 - 1) 0 +
                 (values.insertionSort (· ≤ ·)).getD (values.length / 2) 0) / 2)
       else round1 ((values.insertionSort (· ≤ ·)).getD (values.length / 2) 0)) ∧
    (calculateTimeStats values).variancePop =
      (values.map (fun v => (v - values.sum / values.length) ^ 2)).sum / values.length ∧
    calculateTimeStats [1, 2, 3, 4, 5] =
      { average := 3, median := 3, p85 := 5, min := 1, max := 5,
        variancePop := 2, count := 5 } := by
  have hn : 0 < values.length := List.length_pos.mpr h
  have hlt : 85 * values.length / 100 < values.length := by
    rw [Nat.div_lt_iff_lt_mul (by norm_num : (0:ℕ) < 100)]
    omega
  have hidx : (if values.length ≤ 85 * values.length / 100 then values.length - 1
      else 85 * values.length / 100) =
      min (85 * values.length / 100) (values.length - 1) := by
    rw [if_neg (by omega), min_eq_left (by omega)]
  refine ⟨?_, ?_, List.sorted_insertionSort _ _, List.perm_insertionSort _ _, ?_, ?_, ?_, ?_, ?_, ?_⟩
  all_goals
    simp only [calculateTimeStats, if_neg h]
  · rw [hidx]
  · norm_num [round1, goRound, List.insertionSort, List.orderedInsert,
      Int.floor_eq_iff, List.cons_ne_nil]

/-- Witness for C3 at the concrete input `[1,2,3,4,5]`. -/
theorem calculateTimeStats_spec_witness :
    ([1, 2, 3, 4, 5] : List ℚ) ≠ [] ∧
    (calculateTimeStats [1, 2, 3, 4, 5]).count = ([1, 2, 3, 4, 5] : List ℚ).length :=
  ⟨by simp, (calculateTimeStats_spec [1, 2, 3, 4, 5] (by simp)).1⟩

/-- C7: after `RecalcCycleTime`, cycle time is NULL whenever
`entered_progress_at` is NULL (the first conjunct holds in particular for
closed issues); lead time is still computed whenever the issue is finished
(`COALESCE(entered_done_at, gh_closed_at)` non-NULL, which a non-NULL
`gh_closed_at` guarantees); and with a non-NULL `entered_progress_at` the
cycle time is the hours from it to the done/close instant minus the blocked
hours (NULL blocked time counting as 0). -/
theorem recalcCycleTime_spec (i : IssueTimesRow) :
    (i.enteredProgressAt = none → (RecalcCycleTime i).cycleTimeHours = none) ∧
    (∀ e, coalesce i.enteredDoneAt i.ghClosedAt = some e →
      (RecalcCycleTime i).leadTimeHours = some (e - i.ghCreatedAt)) ∧
    (i.ghClosedAt.isSome → (RecalcCycleTime i).leadTimeHours.isSome) ∧
    (∀ p e, i.enteredProgressAt = some p →
      coalesce i.enteredDoneAt i.ghClosedAt = some e →
      (RecalcCycleTime i).cycleTimeHours = some (e - p - i.blockedTimeHours.getD 0)) := by
  refine ⟨?_, ?_, ?_, ?_⟩
  · intro hp
    simp [RecalcCycleTime, hp]
  · intro e he
    simp [RecalcCycleTime, he]
  · intro hc
    rcases Option.isSome_iff_exists.mp hc with ⟨c, hc⟩
    cases hdone : i.enteredDoneAt <;>
      simp [RecalcCycleTime, coalesce, hdone, hc]
  · intro p e hp he
    simp [RecalcCycleTime, hp, he]

/-- Witness for C7: an issue closed at hour 10 that never entered
in-progress has no cycle time but does get a lead time. -/
theorem recalcCycleTime_spec_witness :
    (RecalcCycleTime { ghCreatedAt := 0, ghClosedAt := some 10 }).cycleTimeHours = none ∧
    (RecalcCycleTime { ghCreatedAt := 0, ghClosedAt := some 10 }).leadTimeHours =
      some (10 - 0) :=
  ⟨(recalcCycleTime_spec _).1 rfl, (recalcCycleTime_spec _).2.1 10 rfl⟩

/-- One `INSERT OR REPLACE` leaves exactly the new row under its key and
keeps every other key untouched. -/
theorem rowsForKey_insertOrReplaceCFD (t : List CFDRow) (r : CFDRow)
    (k : ℕ × String × String) :
    rowsForKey (insertOrReplaceCFD t r) k =
      if cfdKey r = k then [r] else rowsForKey t k := by
  unfold rowsForKey insertOrReplaceCFD
  rw [List.filter_append]
  by_cases hk : cfdKey r = k
  · rw [if_pos hk]
    have h1 : (t.filter (fun x => cfdKey x ≠ cfdKey r)).filter
        (fun x => cfdKey x = k) = [] := by
      rw [List.filter_eq_nil_iff]
      intro a ha
      rcases List.mem_filter.mp ha with ⟨-, hne⟩
      simp only [decide_eq_true_eq] at hne ⊢
      rw [← hk]
      exact hne
    rw [h1]
    simp [hk]
  · rw [if_neg hk]
    have h1 : ([r].filter (fun x => cfdKey x = k)) = [] := by
      simp [hk]
    rw [h1, List.append_nil, List.filter_filter]
    apply List.filter_congr
    intro a ha
    by_cases hak : cfdKey a = k
    · have h2 : cfdKey a ≠ cfdKey r := by
        rw [hak]
        intro hrk
        exact hk hrk.symm
      have h3 : ¬k = cfdKey r := fun he => hk he.symm
      simp [hak, h2, h3]
    · simp [hak]

/-- `SaveCFDSnapshot` under any key: the last counts entry for the status
of the key wins; keys not written by the call keep their previous rows. -/
theorem rowsForKey_saveCFDSnapshot (repoId : ℕ) (date : String) :
    ∀ (counts : List (String × ℕ)) (t : List CFDRow) (k : ℕ × String × String),
      rowsForKey (SaveCFDSnapshot t repoId date counts) k =
        (match counts.reverse.find? (fun p => (repoId, date, p.1) = k) with
         | some p => [⟨repoId, date, p.1, p.2⟩]
         | none => rowsForKey t k) := by
  intro counts
  induction counts with
  | nil => intro t k; rfl
  | cons hd tl ih =>
      intro t k
      have hstep : SaveCFDSnapshot t repoId date (hd :: tl) =
          SaveCFDSnapshot (insertOrReplaceCFD t ⟨repoId, date, hd.1, hd.2⟩) repoId date tl := rfl
      rw [hstep, ih]
      rw [List.reverse_cons, List.find?_append]
      cases hfind : tl.reverse.find? (fun p => (repoId, date, p.1) = k) with
      | some p => simp
      | none =>
          simp only [Option.none_or]
          rw [rowsForKey_insertOrReplaceCFD]
          by_cases hk : (repoId, date, hd.1) = k
          · simp [cfdKey, hk]
          · simp [cfdKey, hk]

/-- `find?` by key on a list with no duplicate keys returns the entry of
any of its members (stated for the exact composite-key predicate used by
`rowsForKey_saveCFDSnapshot`). -/
theorem find?_key_of_nodup (repoId : ℕ) (date : String) {l : List (String × ℕ)}
    (hnd : (l.map Prod.fst).Nodup) {s : String} {c : ℕ} (h : (s, c) ∈ l) :
    l.find? (fun p => (repoId, date, p.1) = (repoId, date, s)) = some (s, c) := by
  induction l with
  | nil => cases h
  | cons hd tl ih =>
      rcases List.mem_cons.mp h with heq | hmem
      · subst heq
        simp [List.find?]
      · have hhd : hd.1 ≠ s := by
          intro he
          have hmm : s ∈ tl.map Prod.fst := List.mem_map.mpr ⟨(s, c), hmem, rfl⟩
          rw [List.map_cons, List.nodup_cons] at hnd
          exact hnd.1 (he ▸ hmm)
        have htl : (tl.map Prod.fst).Nodup := by
          rw [List.map_cons, List.nodup_cons] at hnd
          exact hnd.2
        rw [List.find?_cons_of_neg, ih htl hmem]
        simp [hhd]

/-- C8: with distinct statuses in the counts map (a Go map never repeats a
key), calling `SaveCFDSnapshot` twice for the same repository and calendar
day leaves exactly one `cfd_data` row per (repository, day, status) key of
the counts — the row written by the second call — and the second call
changes nothing relative to the first under any key: no duplicate rows ever
accumulate. -/
theorem saveCFDSnapshot_idempotent (t : List CFDRow) (repoId : ℕ)
    (date : String) (counts : List (String × ℕ))
    (hnd : (counts.map Prod.fst).Nodup) (s : String) (c : ℕ)
    (hmem : (s, c) ∈ counts) :
    rowsForKey
        (SaveCFDSnapshot (SaveCFDSnapshot t repoId date counts) repoId date counts)
        (repoId, date, s) = [⟨repoId, date, s, c⟩] ∧
    (∀ k, rowsForKey
        (SaveCFDSnapshot (SaveCFDSnapshot t repoId date counts) repoId date counts) k =
      rowsForKey (SaveCFDSnapshot t repoId date counts) k) := by
  have hrev : (counts.reverse.map Prod.fst).Nodup := by
    rw [List.map_reverse]
    exact List.nodup_reverse.mpr hnd
  have hmemrev : (s, c) ∈ counts.reverse := List.mem_reverse.mpr hmem
  have hfound := find?_key_of_nodup repoId date hrev hmemrev
  constructor
  · rw [rowsForKey_saveCFDSnapshot, hfound]
  · intro k
    rw [rowsForKey_saveCFDSnapshot]
    cases hfind : counts.reverse.find? (fun p => (repoId, date, p.1) = k) with
    | some p =>
        rw [rowsForKey_saveCFDSnapshot, hfind]
    | none => rfl

/-- Witness for C8 at a concrete table and counts map. -/
theorem saveCFDSnapshot_idempotent_witness :
    ((["backlog", "done"] : List String).Nodup) ∧
    rowsForKey
        (SaveCFDSnapshot
          (SaveCFDSnapshot [⟨1, "2024-01-01", "backlog", 7⟩] 1 "2024-01-01"
            [("backlog", 5), ("done", 3)])
          1 "2024-01-01" [("backlog", 5), ("done", 3)])
        (1, "2024-01-01", "backlog") = [⟨1, "2024-01-01", "backlog", 5⟩] :=
  ⟨by decide,
   (saveCFDSnapshot_idempotent [⟨1, "2024-01-01", "backlog", 7⟩] 1 "2024-01-01"
      [("backlog", 5), ("done", 3)] (by decide) "backlog" 5 (by decide)).1⟩

/-- C5: with positive throughput and positive average lead time, the
Littles-law check computes predicted WIP as throughput-per-day times
average lead time in days and the variance as
(actual − predicted)/predicted, reported as a one-decimal percentage; the
active WIP counts only the ready, in-progress, review and testing columns
(leading backlog and done entries of the WIP map are ignored); when the
predicted WIP is zero the guard fails and the zero result is returned with
no division; for throughput 2/day, lead 5 days and active WIP 12 the
prediction is 10 and the variance +20%. -/
theorem littlesLaw_spec (t l : ℚ) (wip : List (String × ℕ))
    (ht : 0 < t) (hl : 0 < l) :
    (littlesLawCheck t l wip).calculatedWIP = t * l ∧
    (littlesLawCheck t l wip).actualWIP = (activeWIPOf wip : ℤ) ∧
    (littlesLawCheck t l wip).variance =
      round1 (((activeWIPOf wip : ℚ) - t * l) / (t * l) * 100) ∧
    activeWIPOf wip = lookupNat wip "ready" + lookupNat wip "in-progress" +
      lookupNat wip "review" + lookupNat wip "testing" ∧
    (∀ t2 l2 wip2, t2 * l2 = 0 → littlesLawCheck t2 l2 wip2 = {}) ∧
    (∀ b d rest, littlesLawCheck t l (("backlog", b) :: ("done", d) :: rest) =
      littlesLawCheck t l rest) ∧
    littlesLawCheck 2 5
        [("backlog", 100), ("ready", 3), ("in-progress", 4), ("review", 3),
         ("testing", 2), ("done", 50)] =
      { calculatedWIP := 10, actualWIP := 12, variance := 20 } := by
  have hpos : 0 < t * l := mul_pos ht hl
  refine ⟨?_, ?_, ?_, rfl, ?_, ?_, ?_⟩
  · simp [littlesLawCheck, if_pos (And.intro ht hl)]
  · simp [littlesLawCheck, if_pos (And.intro ht hl)]
  · simp [littlesLawCheck, if_pos (And.intro ht hl), if_pos hpos]
  · intro t2 l2 wip2 h0
    have hng : ¬ (0 < t2 ∧ 0 < l2) := by
      rintro ⟨h1, h2⟩
      exact absurd h0 (ne_of_gt (mul_pos h1 h2))
    simp [littlesLawCheck, if_neg hng]
  · intro b d rest
    simp [littlesLawCheck, activeWIPOf, lookupNat, List.find?]
  · have hval : activeWIPOf
        [("backlog", 100), ("ready", 3), ("in-progress", 4), ("review", 3),
         ("testing", 2), ("done", 50)] = 12 := by
      simp [activeWIPOf, lookupNat, List.find?]
    norm_num [littlesLawCheck, hval, round1, goRound, Int.floor_eq_iff]

/-- Witness for C5 at throughput 2/day, lead 5 days, active WIP 12. -/
theorem littlesLaw_spec_witness :
    (0:ℚ) < 2 ∧ (0:ℚ) < 5 ∧
    littlesLawCheck 2 5
        [("backlog", 100), ("ready", 3), ("in-progress", 4), ("review", 3),
         ("testing", 2), ("done", 50)] =
      { calculatedWIP := 10, actualWIP := 12, variance := 20 } :=
  ⟨by norm_num, by norm_num,
   (littlesLaw_spec 2 5
      [("backlog", 100), ("ready", 3), ("in-progress", 4), ("review", 3),
       ("testing", 2), ("done", 50)]
      (by norm_num) (by norm_num)).2.2.2.2.2.2⟩

/-- C4 counterexample: for the single closed issue with lead time 24h
(1 day) and cycle time 6h (0.25 days) the cached collector computes
Round(0.3/1.0·100) = 30, because the ratio is taken over the one-decimal
ROUNDED averages reported by `calculateTimeStats` (0.25 days rounds to
0.3), while the ratio of the unrounded averages required by the claim is
Round(0.25/1.0·100) = 25. -/
theorem flowEfficiencyCached_not_unrounded :
    flowEfficiencyCached [{ leadTimeHours := 24, cycleTimeHours := 6 }] = 30 ∧
    flowEfficiencySpecRule [{ leadTimeHours := 24, cycleTimeHours := 6 }] = 25 ∧
    flowEfficiencyCached [{ leadTimeHours := 24, cycleTimeHours := 6 }] ≠
      flowEfficiencySpecRule [{ leadTimeHours := 24, cycleTimeHours := 6 }] := by
  have h1 : flowEfficiencyCached [{ leadTimeHours := 24, cycleTimeHours := 6 }] = 30 := by
    norm_num [flowEfficiencyCached, cycleTimesOf, workflowLeadTimesOf,
      calculateTimeStats, List.insertionSort, List.orderedInsert,
      round1, goRound, Int.floor_eq_iff]
  have h2 : flowEfficiencySpecRule [{ leadTimeHours := 24, cycleTimeHours := 6 }] = 25 := by
    norm_num [flowEfficiencySpecRule, cycleTimesOf, workflowLeadTimesOf,
      round1, goRound, Int.floor_eq_iff]
  refine ⟨h1, h2, ?_⟩
  rw [h1, h2]
  norm_num

/-- C4 amended: the cached flow efficiency is the integer-rounded ratio of
the ONE-DECIMAL-ROUNDED average cycle time to the ONE-DECIMAL-ROUNDED
average lead time, both taken over only the issues with positive cycle
time; issues without cycle time contribute neither to the numerator nor to
the denominator (dropping them changes nothing); and for two issues with
(lead=10d, cycle=5d) and (lead=20d, cycle=null→0) the result is 50. -/
theorem flowEfficiencyCached_spec (closed : List ClosedIssueStats)
    (hc : cycleTimesOf closed ≠ []) (hl : workflowLeadTimesOf closed ≠ [])
    (hpos : 0 < (calculateTimeStats (workflowLeadTimesOf closed)).average) :
    flowEfficiencyCached closed =
      (goRound ((calculateTimeStats (cycleTimesOf closed)).average /
        (calculateTimeStats (workflowLeadTimesOf closed)).average * 100) : ℚ) ∧
    (∀ cs, flowEfficiencyCached cs =
      flowEfficiencyCached (cs.filter (fun i => 0 < i.cycleTimeHours))) ∧
    flowEfficiencyCached [{ leadTimeHours := 240, cycleTimeHours := 120 },
                          { leadTimeHours := 480, cycleTimeHours := 0 }] = 50 := by
  refine ⟨?_, ?_, ?_⟩
  · simp only [flowEfficiencyCached, if_neg hc, if_neg hl, if_pos hpos]
  · intro cs
    have hid : (cs.filter (fun i => 0 < i.cycleTimeHours)).filter
        (fun i => 0 < i.cycleTimeHours) = cs.filter (fun i => 0 < i.cycleTimeHours) := by
      rw [List.filter_filter]
      apply List.filter_congr
      intro a _
      rw [Bool.and_self]
    have hfc : cycleTimesOf (cs.filter (fun i => 0 < i.cycleTimeHours)) =
        cycleTimesOf cs := by
      unfold cycleTimesOf
      rw [hid]
    have hfl : workflowLeadTimesOf (cs.filter (fun i => 0 < i.cycleTimeHours)) =
        workflowLeadTimesOf cs := by
      unfold workflowLeadTimesOf
      rw [hid]
    unfold flowEfficiencyCached
    rw [hfc, hfl]
  · norm_num [flowEfficiencyCached, cycleTimesOf, workflowLeadTimesOf,
      calculateTimeStats, List.insertionSort, List.orderedInsert,
      round1, goRound, Int.floor_eq_iff]

/-- Witness for C4 (amended) at the two-issue example of the claim. -/
theorem flowEfficiencyCached_spec_witness :
    cycleTimesOf [{ leadTimeHours := 240, cycleTimeHours := 120 },
                  { leadTimeHours := 480, cycleTimeHours := 0 }] ≠ [] ∧
    flowEfficiencyCached [{ leadTimeHours := 240, cycleTimeHours := 120 },
                          { leadTimeHours := 480, cycleTimeHours := 0 }] = 50 :=
  ⟨by norm_num [cycleTimesOf],
   (flowEfficiencyCached_spec
      [{ leadTimeHours := 240, cycleTimeHours := 120 },
       { leadTimeHours := 480, cycleTimeHours := 0 }]
      (by norm_num [cycleTimesOf])
      (by norm_num [workflowLeadTimesOf])
      (by norm_num [workflowLeadTimesOf, calculateTimeStats, List.insertionSort,
        List.orderedInsert, round1, goRound, Int.floor_eq_iff])).2.2⟩

/-- Appending a conditional singleton commutes with the accumulator. -/
theorem append_if_singleton {α : Type} (c : Prop) [Decidable c]
    (b : List α) (x : α) :
    (if c then b ++ [x] else b) = b ++ (if c then [x] else []) := by
  by_cases h : c <;> simp [h]

/-- The WIP-limit foldl of `identifyBottlenecks` is the filterMap of
`wipLimitSignals` appended to the accumulator. -/
theorem wipLimit_foldl_eq_filterMap (limits : List (String × ℕ)) :
    ∀ (l : List (String × ℕ)) (acc : List Bottleneck),
      l.foldl (fun acc p =>
        match lookupOk limits ("status: " ++ p.1) with
        | some limit => if limit < p.2 then acc ++ [.wipLimit p.1 p.2 limit] else acc
        | none => acc) acc =
      acc ++ l.filterMap (fun p =>
        match lookupOk limits ("status: " ++ p.1) with
        | some limit =>
            if limit < p.2 then some (.wipLimit p.1 p.2 limit) else none
        | none => none) := by
  intro l
  induction l with
  | nil => intro acc; simp
  | cons hd tl ih =>
      intro acc
      rw [List.foldl_cons, List.filterMap_cons]
      cases hfind : lookupOk limits ("status: " ++ hd.1) with
      | none => simp only [hfind]; rw [ih]
      | some limit =>
          by_cases hlt : limit < hd.2
          · simp only [hfind, if_pos hlt]
            rw [ih, List.append_assoc]
            rfl
          · simp only [hfind, if_neg hlt]
            rw [ih]

/-- C6 counterexample: two metric values carrying the same WIP map content
in the two possible iteration orders (Go randomizes map iteration, so both
orders occur for the same `KanbanMetrics` value) produce the fired signals
in different output orders — the claimed deterministic output order fails
when two WIP-limit violations fire together. -/
theorem identifyBottlenecks_order_nondeterministic :
    ([("review", 6), ("testing", 9)] : List (String × ℕ)).Perm
      [("testing", 9), ("review", 6)] ∧
    identifyBottlenecks
        { wip := [("review", 6), ("testing", 9)]
          wipLimits := [("status: review", 5), ("status: testing", 5)] } ≠
      identifyBottlenecks
        { wip := [("testing", 9), ("review", 6)]
          wipLimits := [("status: review", 5), ("status: testing", 5)] } := by
  constructor
  · exact List.Perm.swap _ _ _
  · norm_num [identifyBottlenecks, lookupOk, lookupNat, List.find?]
    decide

/-- C6 amended: the six bottleneck rules are evaluated in the fixed source
order — the output is exactly the concatenation of the six independent rule
outputs (so no rule suppresses another and each fires independently of the
rest); the output order is deterministic only up to the order of multiple
rule-1 (WIP-limit) signals, which follows the randomized WIP-map iteration
order (see the counterexample); and a status review with configured limit 5
and count 6 (with in-progress at 3, below the review-imbalance threshold)
fires exactly the one WIP-LIMIT signal naming review, 6, and 5. -/
theorem identifyBottlenecks_spec :
    (∀ m : MetricsForBottlenecks,
      identifyBottlenecks m =
        wipLimitSignals m ++ overloadSignal m ++ reviewSignal m ++
        testingSignal m ++ staleSignal m ++ instabilitySignal m) ∧
    identifyBottlenecks
        { wip := [("review", 6), ("in-progress", 3)]
          wipLimits := [("status: review", 5)] } =
      [.wipLimit "review" 6 5] := by
  constructor
  · intro m
    unfold identifyBottlenecks wipLimitSignals overloadSignal reviewSignal
      testingSignal staleSignal instabilitySignal
    rw [wipLimit_foldl_eq_filterMap, List.nil_append,
      append_if_singleton, append_if_singleton, append_if_singleton,
      append_if_singleton, append_if_singleton]
  · norm_num [identifyBottlenecks, lookupOk, lookupNat, List.find?]
    decide

/-! ### Entity-store helper lemmas -/

/-- A NULL-only stamp keeps an already-set column. -/
theorem fillIfNull_preserves (col : Option ℚ) (now v : ℚ) (h : col = some v) :
    fillIfNull col now = some v := by
  rw [h]
  rfl

theorem enteredPreserved_refl (i : Issue) : enteredPreserved i i :=
  ⟨fun _ h => h, fun _ h => h, fun _ h => h, fun _ h => h, fun _ h => h⟩

theorem enteredPreserved_trans {i j k : Issue} (h1 : enteredPreserved i j)
    (h2 : enteredPreserved j k) : enteredPreserved i k :=
  ⟨fun v h => h2.1 v (h1.1 v h),
   fun v h => h2.2.1 v (h1.2.1 v h),
   fun v h => h2.2.2.1 v (h1.2.2.1 v h),
   fun v h => h2.2.2.2.1 v (h1.2.2.2.1 v h),
   fun v h => h2.2.2.2.2 v (h1.2.2.2.2 v h)⟩

theorem enteredPreserved_ite (g : Issue → Issue)
    (hg : ∀ i, enteredPreserved i (g i)) (tid : ℕ) (i : Issue) :
    enteredPreserved i (if i.id = tid then g i else i) := by
  by_cases h : i.id = tid
  · rw [if_pos h]
    exact hg i
  · rw [if_neg h]
    exact enteredPreserved_refl i

/-- The unconditional UPDATE of `UpsertIssue` does not touch the five
first-entry timestamp columns. -/
theorem applyIssueUpdate_entered (issue i : Issue) :
    enteredPreserved i (applyIssueUpdate issue i) :=
  ⟨fun _ h => h, fun _ h => h, fun _ h => h, fun _ h => h, fun _ h => h⟩

/-- `updateStatusTimestamp` rewrites the issues list through a per-row
function that only fills still-NULL entered columns and touches nothing
else. -/
theorem updateStatusTimestamp_row_effect (db : DBState) (tid : ℕ)
    (s : String) (now : ℚ) :
    ∃ g : Issue → Issue,
      (updateStatusTimestamp db tid s now).issues =
        db.issues.map (fun i => if i.id = tid then g i else i) ∧
      (∀ i, (g i).repoId = i.repoId) ∧ (∀ i, (g i).number = i.number) ∧
      (∀ i, (g i).id = i.id) ∧ (∀ i, (g i).currentStatus = i.currentStatus) ∧
      (∀ i, enteredPreserved i (g i)) := by
  have hid : db.issues = db.issues.map (fun i => if i.id = tid then i else i) := by
    simp
  unfold updateStatusTimestamp
  split
  · exact ⟨fun i => { i with enteredReadyAt := fillIfNull i.enteredReadyAt now },
      rfl, fun _ => rfl, fun _ => rfl, fun _ => rfl, fun _ => rfl,
      fun i => ⟨fun v h => fillIfNull_preserves _ _ _ h,
        fun _ h => h, fun _ h => h, fun _ h => h, fun _ h => h⟩⟩
  · exact ⟨fun i => { i with enteredProgressAt := fillIfNull i.enteredProgressAt now },
      rfl, fun _ => rfl, fun _ => rfl, fun _ => rfl, fun _ => rfl,
      fun i => ⟨fun _ h => h, fun v h => fillIfNull_preserves _ _ _ h,
        fun _ h => h, fun _ h => h, fun _ h => h⟩⟩
  · exact ⟨fun i => { i with enteredReviewAt := fillIfNull i.enteredReviewAt now },
      rfl, fun _ => rfl, fun _ => rfl, fun _ => rfl, fun _ => rfl,
      fun i => ⟨fun _ h => h, fun _ h => h, fun v h => fillIfNull_preserves _ _ _ h,
        fun _ h => h, fun _ h => h⟩⟩
  · exact ⟨fun i => { i with enteredTestingAt := fillIfNull i.enteredTestingAt now },
      rfl, fun _ => rfl, fun _ => rfl, fun _ => rfl, fun _ => rfl,
      fun i => ⟨fun _ h => h, fun _ h => h, fun _ h => h,
        fun v h => fillIfNull_preserves _ _ _ h, fun _ h => h⟩⟩
  · exact ⟨fun i => { i with enteredDoneAt := fillIfNull i.enteredDoneAt now },
      rfl, fun _ => rfl, fun _ => rfl, fun _ => rfl, fun _ => rfl,
      fun i => ⟨fun _ h => h, fun _ h => h, fun _ h => h, fun _ h => h,
        fun v h => fillIfNull_preserves _ _ _ h⟩⟩
  · exact ⟨fun i => i, hid, fun _ => rfl, fun _ => rfl, fun _ => rfl, fun _ => rfl,
      fun i => enteredPreserved_refl i⟩

/-- `updateStatusTimestamp` never touches the transition ledger. -/
theorem updateStatusTimestamp_transitions (db : DBState) (tid : ℕ)
    (s : String) (now : ℚ) :
    (updateStatusTimestamp db tid s now).transitions = db.transitions := by
  unfold updateStatusTimestamp
  split <;> rfl

/-- `find?` by the (repo, number) key commutes with a per-row rewrite that
keeps both key columns. -/
theorem find?_issues_map_if (tid : ℕ) (g : Issue → Issue)
    (hr : ∀ i, (g i).repoId = i.repoId) (hn : ∀ i, (g i).number = i.number)
    (rid n : ℕ) :
    ∀ l : List Issue,
      (l.map (fun i => if i.id = tid then g i else i)).find?
          (fun i => i.repoId == rid && i.number == n) =
        (l.find? (fun i => i.repoId == rid && i.number == n)).map
          (fun i => if i.id = tid then g i else i) := by
  intro l
  induction l with
  | nil => rfl
  | cons hd tl ih =>
      rw [List.map_cons]
      have hp : ((if hd.id = tid then g hd else hd).repoId == rid &&
          (if hd.id = tid then g hd else hd).number == n) =
          (hd.repoId == rid && hd.number == n) := by
        by_cases h : hd.id = tid <;> simp [h, hr, hn]
      by_cases hph : (hd.repoId == rid && hd.number == n) = true
      · rw [List.find?_cons_of_pos, List.find?_cons_of_pos]
        all_goals first
        | rfl
        | (rw [hp]; exact hph)
        | exact hph
      · rw [List.find?_cons_of_neg, List.find?_cons_of_neg]
        all_goals first
        | exact ih
        | (rw [hp]; exact hph)
        | exact hph

/-- The issue probe through `mapIssueRow`. -/
theorem findIssue_mapIssueRow (db : DBState) (tid : ℕ) (g : Issue → Issue)
    (hr : ∀ i, (g i).repoId = i.repoId) (hn : ∀ i, (g i).number = i.number)
    (rid n : ℕ) :
    findIssue (mapIssueRow db tid g) rid n =
      (findIssue db rid n).map (fun i => if i.id = tid then g i else i) := by
  unfold findIssue mapIssueRow
  exact find?_issues_map_if tid g hr hn rid n (db.issues)

/-- Recording a transition does not touch the issues table. -/
theorem findIssue_recordStatusTransition (db : DBState) (a : ℕ)
    (b c : String) (d : ℚ) (rid n : ℕ) :
    findIssue (RecordStatusTransition db a b c d) rid n = findIssue db rid n := rfl

/-- After an upsert, the probe finds a row whose stored status is the
incoming status. -/
theorem findIssue_after_upsert (db : DBState) (issue : Issue) (now : ℚ) :
    ∃ r, findIssue (UpsertIssue db issue now) issue.repoId issue.number = some r ∧
      r.currentStatus = issue.currentStatus := by
  unfold UpsertIssue
  cases h : findIssue db issue.repoId issue.number with
  | none =>
      have hfind : List.find? (fun i => i.repoId == issue.repoId && i.number == issue.number)
          (db.issues ++ [{ issue with id := db.nextId }]) =
          some { issue with id := db.nextId } := by
        rw [List.find?_append]
        unfold findIssue at h
        rw [h]
        simp
      by_cases hs : issue.currentStatus ≠ ""
      · rw [if_pos hs]
        exact ⟨{ issue with id := db.nextId }, hfind, rfl⟩
      · rw [if_neg hs]
        exact ⟨{ issue with id := db.nextId }, hfind, rfl⟩
  | some existing =>
      dsimp only
      by_cases hst : existing.currentStatus ≠ issue.currentStatus
      · rw [if_pos hst]
        obtain ⟨g, hgeq, hgr, hgn, hgid, hgst, -⟩ :=
          updateStatusTimestamp_row_effect
            (RecordStatusTransition db existing.id existing.currentStatus
              issue.currentStatus now)
            existing.id issue.currentStatus now
        have hXi : (RecordStatusTransition db existing.id existing.currentStatus
            issue.currentStatus now).issues = db.issues := rfl
        rw [hXi] at hgeq
        have h1 : findIssue
            (updateStatusTimestamp
              (RecordStatusTransition db existing.id existing.currentStatus
                issue.currentStatus now)
              existing.id issue.currentStatus now)
            issue.repoId issue.number = some (g existing) := by
          unfold findIssue
          rw [hgeq, find?_issues_map_if existing.id g hgr hgn]
          unfold findIssue at h
          rw [h]
          simp
        rw [findIssue_mapIssueRow _ existing.id (applyIssueUpdate issue)
          (fun i => rfl) (fun i => rfl) issue.repoId issue.number, h1]
        refine ⟨_, rfl, ?_⟩
        show (if (g existing).id = existing.id then
          applyIssueUpdate issue (g existing) else g existing).currentStatus =
          issue.currentStatus
        rw [if_pos (hgid existing)]
        rfl
      · rw [if_neg hst]
        rw [findIssue_mapIssueRow _ existing.id (applyIssueUpdate issue)
          (fun i => rfl) (fun i => rfl) issue.repoId issue.number, h]
        refine ⟨_, rfl, ?_⟩
        show (if existing.id = existing.id then
          applyIssueUpdate issue existing else existing).currentStatus =
          issue.currentStatus
        rw [if_pos rfl]
        rfl

/-- Upserting a record whose status equals the stored status appends no
transition (the status-change branch is not taken). -/
theorem upsert_noop_transitions (db : DBState) (issue : Issue) (now : ℚ)
    (r : Issue) (h : findIssue db issue.repoId issue.number = some r)
    (hst : r.currentStatus = issue.currentStatus) :
    (UpsertIssue db issue now).transitions = db.transitions := by
  unfold UpsertIssue
  rw [h]
  dsimp only
  rw [if_neg (by simp [hst])]
  rfl

/-- The positional row preservation of `UpsertIssue` on the five
first-entry timestamps. -/
theorem upsert_entered_preserved (db : DBState) (issue : Issue) (now : ℚ)
    (idx : ℕ) (i : Issue) (hi : db.issues[idx]? = some i) :
    ∃ j, (UpsertIssue db issue now).issues[idx]? = some j ∧ enteredPreserved i j := by
  have hlt : idx < db.issues.length := by
    by_contra hge
    rw [List.getElem?_eq_none (le_of_not_lt hge)] at hi
    cases hi
  unfold UpsertIssue
  cases h : findIssue db issue.repoId issue.number with
  | none =>
      dsimp only
      by_cases hs : issue.currentStatus ≠ ""
      · rw [if_pos hs]
        refine ⟨i, ?_, enteredPreserved_refl i⟩
        show (db.issues ++ [{ issue with id := db.nextId }])[idx]? = some i
        rw [List.getElem?_append, if_pos hlt]
        exact hi
      · rw [if_neg hs]
        refine ⟨i, ?_, enteredPreserved_refl i⟩
        show (db.issues ++ [{ issue with id := db.nextId }])[idx]? = some i
        rw [List.getElem?_append, if_pos hlt]
        exact hi
  | some existing =>
      dsimp only
      by_cases hst : existing.currentStatus ≠ issue.currentStatus
      · rw [if_pos hst]
        obtain ⟨g, hgeq, -, -, -, -, hgp⟩ :=
          updateStatusTimestamp_row_effect
            (RecordStatusTransition db existing.id existing.currentStatus
              issue.currentStatus now)
            existing.id issue.currentStatus now
        have hXi : (RecordStatusTransition db existing.id existing.currentStatus
            issue.currentStatus now).issues = db.issues := rfl
        rw [hXi] at hgeq
        have hj : (mapIssueRow
            (updateStatusTimestamp
              (RecordStatusTransition db existing.id existing.currentStatus
                issue.currentStatus now)
              existing.id issue.currentStatus now)
            existing.id (applyIssueUpdate issue)).issues[idx]? =
            some ((fun x => if x.id = existing.id then applyIssueUpdate issue x else x)
              ((fun x => if x.id = existing.id then g x else x) i)) := by
          show ((updateStatusTimestamp
            (RecordStatusTransition db existing.id existing.currentStatus
              issue.currentStatus now)
            existing.id issue.currentStatus now).issues.map
              (fun x => if x.id = existing.id then applyIssueUpdate issue x else x))[idx]? = _
          rw [hgeq, List.getElem?_map, List.getElem?_map, hi]
          rfl
        exact ⟨_, hj, enteredPreserved_trans
          (enteredPreserved_ite g hgp existing.id i)
          (enteredPreserved_ite (applyIssueUpdate issue)
            (applyIssueUpdate_entered issue) existing.id _)⟩
      · rw [if_neg hst]
        have hj : (mapIssueRow db existing.id (applyIssueUpdate issue)).issues[idx]? =
            some (if i.id = existing.id then applyIssueUpdate issue i else i) := by
          show (db.issues.map
            (fun x => if x.id = existing.id then applyIssueUpdate issue x else x))[idx]? = _
          rw [List.getElem?_map, hi]
          rfl
        exact ⟨_, hj, enteredPreserved_ite (applyIssueUpdate issue)
          (applyIssueUpdate_entered issue) existing.id i⟩

/-- C2: upserting over a stored row with the same status appends zero
transition rows — in particular a second upsert with an identical record
appends nothing — a fresh row with a non-empty status appends exactly the
one initial transition from NULL to that status at the remote update time,
a fresh row with an empty status appends nothing, and an update whose
incoming status differs from the stored one appends exactly the one
transition from the stored to the incoming status at processing time. -/
theorem upsertIssue_transition_ledger :
    (∀ (db : DBState) (issue : Issue) (now : ℚ) (r : Issue),
      findIssue db issue.repoId issue.number = some r →
      r.currentStatus = issue.currentStatus →
      (UpsertIssue db issue now).transitions = db.transitions) ∧
    (∀ (db : DBState) (issue : Issue) (now now2 : ℚ),
      (UpsertIssue (UpsertIssue db issue now) issue now2).transitions =
        (UpsertIssue db issue now).transitions) ∧
    (∀ (db : DBState) (issue : Issue) (now : ℚ),
      findIssue db issue.repoId issue.number = none →
      issue.currentStatus ≠ "" →
      (UpsertIssue db issue now).transitions =
        db.transitions ++ [⟨db.nextId, none, issue.currentStatus, issue.ghUpdatedAt⟩]) ∧
    (∀ (db : DBState) (issue : Issue) (now : ℚ),
      findIssue db issue.repoId issue.number = none →
      issue.currentStatus = "" →
      (UpsertIssue db issue now).transitions = db.transitions) ∧
    (∀ (db : DBState) (issue : Issue) (now : ℚ) (r : Issue),
      findIssue db issue.repoId issue.number = some r →
      r.currentStatus ≠ issue.currentStatus →
      (UpsertIssue db issue now).transitions =
        db.transitions ++ [⟨r.id, nullString r.currentStatus, issue.currentStatus, now⟩]) := by
  refine ⟨?_, ?_, ?_, ?_, ?_⟩
  · exact fun db issue now r h hst => upsert_noop_transitions db issue now r h hst
  · intro db issue now now2
    obtain ⟨r, hr, hst⟩ := findIssue_after_upsert db issue now
    exact upsert_noop_transitions _ issue now2 r hr hst
  · intro db issue now h hs
    unfold UpsertIssue
    rw [h]
    dsimp only
    rw [if_pos hs]
    rfl
  · intro db issue now h hs
    unfold UpsertIssue
    rw [h]
    dsimp only
    rw [if_neg (by simp [hs])]
  · intro db issue now r h hne
    unfold UpsertIssue
    rw [h]
    dsimp only
    rw [if_pos hne]
    calc (mapIssueRow
          (updateStatusTimestamp
            (RecordStatusTransition db r.id r.currentStatus issue.currentStatus now)
            r.id issue.currentStatus now)
          r.id (applyIssueUpdate issue)).transitions
        = (updateStatusTimestamp
            (RecordStatusTransition db r.id r.currentStatus issue.currentStatus now)
            r.id issue.currentStatus now).transitions := rfl
      _ = (RecordStatusTransition db r.id r.currentStatus
            issue.currentStatus now).transitions :=
          updateStatusTimestamp_transitions _ _ _ _
      _ = db.transitions ++
            [⟨r.id, nullString r.currentStatus, issue.currentStatus, now⟩] := rfl

/-- Witness for C2: the first upsert of a record with status "ready" into
an empty store appends exactly the initial transition. -/
theorem upsertIssue_transition_ledger_witness :
    findIssue {} 1 1 = none ∧
    (UpsertIssue {}
        { repoId := 1, number := 1, currentStatus := "ready", ghUpdatedAt := 3 }
        7).transitions =
      [⟨1, none, "ready", 3⟩] :=
  ⟨rfl, upsertIssue_transition_ledger.2.2.1 {}
    { repoId := 1, number := 1, currentStatus := "ready", ghUpdatedAt := 3 }
    7 rfl (by decide)⟩

/-- C1 counterexample: a row whose `entered_ready_at` is already set to
hour 5 has it overwritten to hour 9 by `UpdateIssueTimestamps` when the
timeline supplies a non-null value — the SQL is
`entered_ready_at = COALESCE(?, entered_ready_at)` with the parameter
first, so the claimed never-overwrite property fails. -/
theorem updateIssueTimestamps_overwrites :
    (({ issues := [{ repoId := 1, number := 1, id := 1, enteredReadyAt := some 5 }] } :
        DBState).issues.map (fun i => i.enteredReadyAt)) = [some 5] ∧
    ((UpdateIssueTimestamps
        { issues := [{ repoId := 1, number := 1, id := 1, enteredReadyAt := some 5 }] }
        1 (some 9) none none none none).issues.map (fun i => i.enteredReadyAt)) =
      [some 9] ∧
    some (9 : ℚ) ≠ some (5 : ℚ) := by
  refine ⟨rfl, ?_, ?_⟩
  · simp [UpdateIssueTimestamps, mapIssueRow, coalesce]
  · simp only [ne_eq, Option.some.injEq]
    norm_num

/-- C1 amended: the upsert path never changes a non-null first-entry
timestamp (every stored row keeps, position by position, each already-set
`entered_*_at` value through `UpsertIssue`, whose stamping UPDATE only
fills NULL columns); the timeline backfill `UpdateIssueTimestamps`,
however, applies `COALESCE(param, column)` — a null parameter preserves
the column, but a NON-NULL timeline value replaces the column even when it
is already set. -/
theorem entered_timestamps_write_discipline :
    (∀ (db : DBState) (issue : Issue) (now : ℚ) (idx : ℕ) (i : Issue),
      db.issues[idx]? = some i →
      ∃ j, (UpsertIssue db issue now).issues[idx]? = some j ∧ enteredPreserved i j) ∧
    (∀ (a : ℚ) (b : Option ℚ), coalesce (some a) b = some a) ∧
    (∀ b : Option ℚ, coalesce none b = b) ∧
    (∀ (db : DBState) (tid : ℕ) (tr tp tv tt td : Option ℚ) (idx : ℕ) (i : Issue),
      db.issues[idx]? = some i →
      (UpdateIssueTimestamps db tid tr tp tv tt td).issues[idx]? =
        some (if i.id = tid then
          { i with
            enteredReadyAt := coalesce tr i.enteredReadyAt
            enteredProgressAt := coalesce tp i.enteredProgressAt
            enteredReviewAt := coalesce tv i.enteredReviewAt
            enteredTestingAt := coalesce tt i.enteredTestingAt
            enteredDoneAt := coalesce td i.enteredDoneAt }
          else i)) := by
  refine ⟨?_, fun a b => rfl, fun b => rfl, ?_⟩
  · exact fun db issue now idx i hi => upsert_entered_preserved db issue now idx i hi
  · intro db tid tr tp tv tt td idx i hi
    show (db.issues.map _)[idx]? = _
    rw [List.getElem?_map, hi]
    rfl

/-- Witness for C1 (amended): the already-set ready timestamp of a stored
row survives an upsert that moves the issue to status ready. -/
theorem entered_timestamps_write_discipline_witness :
    ∃ j, (UpsertIssue
        { issues := [{ repoId := 1, number := 1, id := 1, enteredReadyAt := some 5 }] }
        { repoId := 1, number := 1, currentStatus := "ready" } 7).issues[0]? = some j ∧
      enteredPreserved
        { repoId := 1, number := 1, id := 1, enteredReadyAt := some 5 } j :=
  entered_timestamps_write_discipline.1
    { issues := [{ repoId := 1, number := 1, id := 1, enteredReadyAt := some 5 }] }
    { repoId := 1, number := 1, currentStatus := "ready" } 7 0
    { repoId := 1, number := 1, id := 1, enteredReadyAt := some 5 } rfl

/-! ### Timeline-walk helper lemmas -/

/-- One walk step either leaves the blocked output untouched or closes
exactly one interval, adding its duration to the running total. -/
theorem processEvent_cases (st : WalkState) (e : TimelineEvent) :
    ((processEvent st e).result.blockedPeriods = st.result.blockedPeriods ∧
     (processEvent st e).result.totalBlocked = st.result.totalBlocked) ∨
    (∃ p : TLBlockedPeriod,
      (processEvent st e).result.blockedPeriods = st.result.blockedPeriods ++ [p] ∧
      (processEvent st e).result.totalBlocked = st.result.totalBlocked + p.duration) := by
  unfold processEvent
  dsimp only
  split_ifs <;>
    first
    | exact Or.inl ⟨rfl, rfl⟩
    | (split
       · exact Or.inr ⟨_, rfl, rfl⟩
       · exact Or.inl ⟨rfl, rfl⟩)

/-- Invariant: the running total always equals the sum of the durations of
the recorded periods. -/
theorem walk_totalBlocked :
    ∀ (evts : List TimelineEvent) (st : WalkState),
      st.result.totalBlocked =
        ((st.result.blockedPeriods.map (fun p => p.duration)).sum) →
      (evts.foldl processEvent st).result.totalBlocked =
        (((evts.foldl processEvent st).result.blockedPeriods.map
          (fun p => p.duration)).sum) := by
  intro evts
  induction evts with
  | nil => intro st h; exact h
  | cons e tl ih =>
      intro st h
      rw [List.foldl_cons]
      apply ih
      rcases processEvent_cases st e with ⟨h1, h2⟩ | ⟨p, h1, h2⟩
      · rw [h1, h2]
        exact h
      · rw [h1, h2, List.map_append, List.sum_append, h]
        simp

/-- One walk step changes the status map exactly as the first-entry rule
prescribes, regardless of the blocked-interval bookkeeping. -/
theorem processEvent_statusChanges (st : WalkState) (e : TimelineEvent) :
    (processEvent st e).result.statusChanges =
      (if e.event = "labeled" ∧ goHasPre (goToLower e.label) "status:" then
        (if (st.result.statusChanges.find?
              (fun p => p.1 == extractStatus e.label)).isSome
         then st.result.statusChanges
         else st.result.statusChanges ++ [(extractStatus e.label, e.createdAt)])
       else st.result.statusChanges) := by
  unfold processEvent
  dsimp only
  split_ifs <;> (try rfl) <;> (split <;> rfl)

/-- The walk records, per status, exactly the first labeled event carrying
that status (later with the generic accumulator folded away). -/
theorem walk_statusChanges :
    ∀ (evts : List TimelineEvent) (st : WalkState) (s : String),
      ((evts.foldl processEvent st).result.statusChanges.find? (fun p => p.1 == s)) =
        ((st.result.statusChanges.find? (fun p => p.1 == s)).or
          ((evts.find? (fun e => e.event == "labeled" &&
              goHasPre (goToLower e.label) "status:" &&
              (extractStatus e.label == s))).map
            (fun e => (extractStatus e.label, e.createdAt)))) := by
  intro evts
  induction evts with
  | nil =>
      intro st s
      simp
  | cons e tl ih =>
      intro st s
      rw [List.foldl_cons, ih, List.find?_cons]
      by_cases hC : e.event = "labeled" ∧ goHasPre (goToLower e.label) "status:"
      · by_cases hS : extractStatus e.label = s
        · have hpred : (e.event == "labeled" &&
              goHasPre (goToLower e.label) "status:" &&
              (extractStatus e.label == s)) = true := by
            simp [hC.1, hC.2, hS]
          simp only [hpred]
          rw [processEvent_statusChanges, if_pos hC]
          by_cases hex : (st.result.statusChanges.find?
              (fun p => p.1 == extractStatus e.label)).isSome
          · rw [if_pos hex]
            rw [hS] at hex
            rcases Option.isSome_iff_exists.mp hex with ⟨q, hq⟩
            rw [hq]
            rfl
          · rw [if_neg hex]
            rw [List.find?_append]
            rw [hS] at hex
            have hnone : st.result.statusChanges.find? (fun p => p.1 == s) = none :=
              Option.not_isSome_iff_eq_none.mp hex
            rw [hnone]
            simp [hS]
        · have hpred : (e.event == "labeled" &&
              goHasPre (goToLower e.label) "status:" &&
              (extractStatus e.label == s)) = false := by
            simp [hS]
          simp only [hpred]
          rw [processEvent_statusChanges, if_pos hC]
          by_cases hex : (st.result.statusChanges.find?
              (fun p => p.1 == extractStatus e.label)).isSome
          · rw [if_pos hex]
          · rw [if_neg hex, List.find?_append]
            have htail : List.find? (fun p => p.1 == s)
                [(extractStatus e.label, e.createdAt)] = none := by
              simp [hS]
            rw [htail]
            simp
      · have hpred : (e.event == "labeled" &&
            goHasPre (goToLower e.label) "status:" &&
            (extractStatus e.label == s)) = false := by
          rcases Decidable.not_and_iff_or_not.mp hC with h1 | h2
          · simp [h1]
          · simp [h2]
        simp only [hpred]
        rw [processEvent_statusChanges, if_neg hC]

/-- C9 counterexample: the event walk is NOT a function of the event list
alone — on a sequence ending with an open blocked interval its total
blocked hours (and open-period duration) are computed against the clock
(`time.Since`), so two runs of `GetIssueTimeline` over the same single
blocked label-add, ten hours apart, disagree. -/
theorem getIssueTimeline_clock_dependent :
    (GetIssueTimeline [⟨"labeled", "blocked", 0⟩] 10).totalBlocked = 10 ∧
    (GetIssueTimeline [⟨"labeled", "blocked", 0⟩] 20).totalBlocked = 20 ∧
    GetIssueTimeline [⟨"labeled", "blocked", 0⟩] 10 ≠
      GetIssueTimeline [⟨"labeled", "blocked", 0⟩] 20 := by
  have hA : goHasPre (goToLower "blocked") "status:" = false := by decide
  have hA2 : goHasPre "blocked" "status:" = false := by decide
  have hB : goToLower "blocked" = "blocked" := by decide
  have hD : ¬("labeled" = "unlabeled") := by decide
  have h1 : (GetIssueTimeline [⟨"labeled", "blocked", 0⟩] 10).totalBlocked = 10 := by
    norm_num [GetIssueTimeline, processEvent, hA, hA2, hB, hD]
  have h2 : (GetIssueTimeline [⟨"labeled", "blocked", 0⟩] 20).totalBlocked = 20 := by
    norm_num [GetIssueTimeline, processEvent, hA, hA2, hB, hD]
  refine ⟨h1, h2, fun heq => ?_⟩
  rw [heq] at h1
  exact absurd (h1.symm.trans h2) (by norm_num)

/-- C9 amended: the event walk of `GetIssueTimeline` is a pure function of
the event list AND the clock reading: (a) the total blocked hours always
equal the sum of the reported interval durations; (b) the first-entry map
holds, per status, exactly the timestamp of the first labeled event
carrying that status (later labeled events for the same status are
ignored); (c) when the walk ends with no open blocked interval the entire
output is independent of the clock — same input list, same output, every
time; (d) a trailing open interval is reported once at the end, with no
end instant and duration `now - start`, added to the total. -/
theorem getIssueTimeline_walk_spec :
    (∀ (evts : List TimelineEvent) (now : ℚ),
      (GetIssueTimeline evts now).totalBlocked =
        (((GetIssueTimeline evts now).blockedPeriods.map (fun p => p.duration)).sum)) ∧
    (∀ (evts : List TimelineEvent) (now : ℚ) (s : String),
      ((GetIssueTimeline evts now).statusChanges.find? (fun p => p.1 == s)) =
        ((evts.find? (fun e => e.event == "labeled" &&
            goHasPre (goToLower e.label) "status:" &&
            (extractStatus e.label == s))).map
          (fun e => (extractStatus e.label, e.createdAt)))) ∧
    (∀ (evts : List TimelineEvent) (n1 n2 : ℚ),
      (evts.foldl processEvent {}).blockedStart = none →
      GetIssueTimeline evts n1 = GetIssueTimeline evts n2) ∧
    (∀ (evts : List TimelineEvent) (now s : ℚ),
      (evts.foldl processEvent {}).blockedStart = some s →
      (GetIssueTimeline evts now).blockedPeriods =
        (evts.foldl processEvent {}).result.blockedPeriods ++ [⟨s, none, now - s⟩] ∧
      (GetIssueTimeline evts now).totalBlocked =
        (evts.foldl processEvent {}).result.totalBlocked + (now - s)) := by
  have hwalk : ∀ (evts : List TimelineEvent),
      (evts.foldl processEvent {}).result.totalBlocked =
        (((evts.foldl processEvent {}).result.blockedPeriods.map
          (fun p => p.duration)).sum) :=
    fun evts => walk_totalBlocked evts {} rfl
  refine ⟨?_, ?_, ?_, ?_⟩
  · intro evts now
    unfold GetIssueTimeline
    dsimp only
    cases hbs : (evts.foldl processEvent {}).blockedStart with
    | none => exact hwalk evts
    | some s =>
        dsimp only
        rw [List.map_append, List.sum_append, hwalk evts]
        simp
  · intro evts now s
    have hsc : (GetIssueTimeline evts now).statusChanges =
        (evts.foldl processEvent {}).result.statusChanges := by
      unfold GetIssueTimeline
      dsimp only
      cases hbs : (evts.foldl processEvent {}).blockedStart <;> rfl
    rw [hsc, walk_statusChanges evts {} s]
    simp
  · intro evts n1 n2 h
    unfold GetIssueTimeline
    dsimp only
    rw [h]
  · intro evts now s h
    unfold GetIssueTimeline
    dsimp only
    rw [h]
    exact ⟨rfl, rfl⟩

/-- Witness for C9 (amended): a walk that closes its blocked interval is
independent of the clock. -/
theorem getIssueTimeline_walk_spec_witness :
    (([⟨"labeled", "blocked", 0⟩, ⟨"unlabeled", "blocked", 4⟩] :
        List TimelineEvent).foldl processEvent {}).blockedStart = none ∧
    GetIssueTimeline [⟨"labeled", "blocked", 0⟩, ⟨"unlabeled", "blocked", 4⟩] 10 =
      GetIssueTimeline [⟨"labeled", "blocked", 0⟩, ⟨"unlabeled", "blocked", 4⟩] 20 :=
  ⟨by decide,
   getIssueTimeline_walk_spec.2.2.1
     [⟨"labeled", "blocked", 0⟩, ⟨"unlabeled", "blocked", 4⟩] 10 20 (by decide)⟩

/-- With no configured limits, no arrivals, balanced review/testing
counts, no aging items and zero variance, no bottleneck rule fires. -/
theorem identifyBottlenecks_quiet (m : MetricsForBottlenecks)
    (hwl : m.wipLimits = []) (harr : m.arrivalRate = 0)
    (hrev : lookupNat m.wip "review" ≤ 2) (htst : lookupNat m.wip "testing" ≤ 2)
    (hag : m.agingAgeDays = []) (hv : m.littlesVariance = 0) :
    identifyBottlenecks m = [] := by
  unfold identifyBottlenecks
  dsimp only
  rw [wipLimit_foldl_eq_filterMap, List.nil_append]
  have h1 : (m.wip.filterMap (fun p =>
      match lookupOk m.wipLimits ("status: " ++ p.1) with
      | some limit =>
          if limit < p.2 then some (Bottleneck.wipLimit p.1 p.2 limit) else none
      | none => none)) = [] := by
    apply List.filterMap_eq_nil_iff.mpr
    intro p hp
    rw [hwl]
    rfl
  have c2 : ¬(m.departureRate * (3/2) < m.arrivalRate ∧ (1/2 : ℚ) < m.arrivalRate) := by
    rw [harr]
    rintro ⟨-, h⟩
    norm_num at h
  have c3 : ¬(lookupNat m.wip "in-progress" * 2 < lookupNat m.wip "review" ∧
      2 < lookupNat m.wip "review") := by
    rintro ⟨-, h⟩
    omega
  have c4 : ¬(lookupNat m.wip "review" * 2 < lookupNat m.wip "testing" ∧
      2 < lookupNat m.wip "testing") := by
    rintro ⟨-, h⟩
    omega
  have c5 : ¬(0 < (m.agingAgeDays.filter (fun a => 14 < a)).length) := by
    rw [hag]
    simp
  have c6 : ¬(50 < |m.littlesVariance|) := by
    rw [hv]
    norm_num
  rw [if_neg c6, if_neg c5, if_neg c4, if_neg c3, if_neg c2, h1]

/-- C10 counterexample: with no data at all (empty WIP summary, so no
repository groups) the cached metrics collection returns the
`no data found` error instead of an empty result — the collector does
raise for a fully empty data set. -/
theorem collectMetricsCached_errors_on_no_data :
    collectMetricsCachedCore "org" 30 [] [] [] [] [] =
      Except.error
        "no data found. Run \x27kanban sync\x27 first to populate the database" := rfl

/-- C10 amended: the statistics kernel returns the all-zero `TimeStats`
for an empty sample instead of failing; a repository group whose window
holds no closed issues, no board rows and no arrivals gets all-zero flow
statistics (lead, cycle, throughput, flow efficiency, rates, WIP age,
aging list) and — when its WIP data triggers none of the WIP-only rules —
no bottleneck signals, without any error; but when no repository has any
WIP data at all, the cached collector returns the `no data found` error
rather than an empty result (callers are told to sync first). -/
theorem metrics_empty_window_spec :
    calculateTimeStats [] = {} ∧
    (∀ (org repoName : String) (days : ℕ) (wip wipLimits : List (String × ℕ)),
      wipLimits = [] → lookupNat wip "review" ≤ 2 → lookupNat wip "testing" ≤ 2 →
      (buildRepoMetricsCached org repoName days wip wipLimits [] [] none).leadTime = {} ∧
      (buildRepoMetricsCached org repoName days wip wipLimits [] [] none).cycleTime = {} ∧
      (buildRepoMetricsCached org repoName days wip wipLimits [] [] none).throughput = {} ∧
      (buildRepoMetricsCached org repoName days wip wipLimits [] [] none).flowEfficiency = 0 ∧
      (buildRepoMetricsCached org repoName days wip wipLimits [] [] none).arrivalRate = 0 ∧
      (buildRepoMetricsCached org repoName days wip wipLimits [] [] none).departureRate = 0 ∧
      (buildRepoMetricsCached org repoName days wip wipLimits [] [] none).wipAge = {} ∧
      (buildRepoMetricsCached org repoName days wip wipLimits [] [] none).agingIssues = [] ∧
      (buildRepoMetricsCached org repoName days wip wipLimits [] [] none).bottlenecks = []) ∧
    (∀ (org : String) (days : ℕ) (wipLimits : List (String × ℕ))
        (board : List BoardIssue) (closed : List (String × List ClosedIssueStats))
        (arrival : List (String × ℕ)),
      collectMetricsCachedCore org days wipLimits [] board closed arrival =
        Except.error
          "no data found. Run \x27kanban sync\x27 first to populate the database") := by
  refine ⟨rfl, ?_, ?_⟩
  · intro org repoName days wip wipLimits hwl hrev htst
    have hq : identifyBottlenecks
        { wip := wip, wipLimits := wipLimits, arrivalRate := 0,
          departureRate := 0, agingAgeDays := [], littlesVariance := 0 } = [] :=
      identifyBottlenecks_quiet _ hwl rfl hrev htst rfl rfl
    unfold buildRepoMetricsCached
    dsimp only
    rw [if_neg (by simp : ¬(([] : List ClosedIssueStats) ≠ []))]
    simp [hq]
  · intro org days wipLimits board closed arrival
    rfl

/-- Witness for C10 (amended) at a concrete one-column repository group. -/
theorem metrics_empty_window_spec_witness :
    lookupNat [("backlog", 2)] "review" ≤ 2 ∧
    (buildRepoMetricsCached "o" "o/r" 30 [("backlog", 2)] [] [] [] none).throughput =
      {} ∧
    (buildRepoMetricsCached "o" "o/r" 30 [("backlog", 2)] [] [] [] none).bottlenecks =
      [] :=
  ⟨by decide,
   (metrics_empty_window_spec.2.1 "o" "o/r" 30 [("backlog", 2)] [] rfl
      (by decide) (by decide)).2.2.1,
   (metrics_empty_window_spec.2.1 "o" "o/r" 30 [("backlog", 2)] [] rfl
      (by decide) (by decide)).2.2.2.2.2.2.2.2⟩

end Kanban
